import Mathlib

/-!
Shallow embedding of the neurobot credit-ledger core: the currency
repository/service (`internal/currency`), the subscription entitlement
resolver (`internal/subscription`) and the LLM metering service
(`internal/llm`).

Conventions of the embedding:
* Timestamps are integers (seconds); `time.Now()` becomes an explicit
  `now` argument.  `time.AddDate` calendar arithmetic is abstracted to
  fixed-length days (86400 s) and years (365 days); only the relative
  ordering and the structure of the produced values matter to the claims.
* The SQL database is a record of lists (`DB`).  A SQL transaction that
  rolls back on failure is modelled by returning the caller's original
  `DB` value on the error path.
* Fallible Go functions returning `(T, error)` become `Except String T`
  (paired with the resulting `DB` when they can commit writes).
* `crypto/sha256` + hex encoding is abstracted as a parameter
  `sha : String → String`; two successive `hasher.Write` calls hash the
  concatenation of the two strings, so the fingerprint of a request is
  `sha (requestText ++ modelName)`.
* Go `map[string]interface{}` metadata values are carried opaquely as
  string key/value pairs; no modelled code path inspects them.
* Integer division in Go truncates toward zero; `goQuot` is `Int.tdiv`.
-/

deriving instance DecidableEq for Except

namespace Neurobot

/-- Seconds in one hour. -/
def hourSeconds : Int := 3600

/-- Seconds in one day. -/
def daySeconds : Int := 86400

/-- Go integer division (truncation toward zero). -/
def goQuot (a b : Int) : Int := Int.tdiv a b

/-- Abstraction of Go `time.AddDate(0, 0, d)`: add `d` fixed-length days. -/
def addDateDays (t d : Int) : Int := t + d * daySeconds

/-- Abstraction of Go `time.AddDate(y, 0, 0)`: add `y` fixed-length years. -/
def addDateYears (t y : Int) : Int := t + y * 365 * daySeconds

/-- Subscription status (`internal/subscription` model, `Status`). -/
inductive Status where
  | active
  | cancelled
  | expired
deriving DecidableEq

/-- A JSON feature value stored in a plan's `features` map.  The Go code
reads numbers (decoded as `float64`, integral in practice), strings,
booleans and string lists out of the untyped map. -/
inductive FeatureValue where
  | num (n : Int)
  | str (s : String)
  | flag (b : Bool)
  | strList (l : List String)
deriving DecidableEq

/-- The `features` JSONB map of a subscription plan. -/
abbrev Features := List (String × FeatureValue)

/-- Subscription plan (`internal/subscription` model, `Plan`). -/
structure Plan where
  id : Int
  code : String
  name : String
  priceMonthly : Int
  priceYearly : Int
  dailyNeurons : Int
  maxRequestLength : Int
  contextMessages : Int
  features : Features
  isActive : Bool
deriving DecidableEq

/-- Go `Plan.GetNeuronDiscount`: the `neuron_discount` feature, default 0. -/
def Plan.GetNeuronDiscount (p : Plan) : Int :=
  match p.features.lookup "neuron_discount" with
  | some (FeatureValue.num n) => n
  | _ => 0

/-- Go `Plan.GetNeuronExpiryDays`: the `neuron_expiry_days` feature, default 3. -/
def Plan.GetNeuronExpiryDays (p : Plan) : Int :=
  match p.features.lookup "neuron_expiry_days" with
  | some (FeatureValue.num n) => n
  | _ => 3

/-- Go `Plan.GetAvailableModels`: the `available_models` feature, default empty. -/
def Plan.GetAvailableModels (p : Plan) : List String :=
  match p.features.lookup "available_models" with
  | some (FeatureValue.strList l) => l
  | _ => []

/-- User subscription (`internal/subscription` model, `Subscription`).
The `plan` field mirrors the Go `Plan *Plan` pointer loaded separately
from the subscription row. -/
structure Subscription where
  id : Int
  userId : Int
  planId : Int
  status : Status
  startDate : Int
  endDate : Int
  autoRenew : Bool
  plan : Option Plan
deriving DecidableEq

/-- Transaction kind (`internal/currency` model, `TransactionType`). -/
inductive TransactionType where
  | daily
  | purchase
  | usage
  | referral
  | bonus
  | subscription
  | admin
  | promocode
  | achievement
deriving DecidableEq

/-- Per-user neuron balance row (`user_neuron_balance`). -/
structure Balance where
  userId : Int
  balance : Int
  lifetimeEarned : Int
  lifetimeSpent : Int
  lastDailyRewardAt : Option Int
deriving DecidableEq

/-- Go `Balance.CanReceiveDailyReward`: more than 20 hours must have passed
since the last daily reward (a 4-hour slack under 24 h). -/
def Balance.CanReceiveDailyReward (b : Balance) (now : Int) : Bool :=
  match b.lastDailyRewardAt with
  | none => true
  | some t => decide (now - t > 20 * hourSeconds)

/-- Ledger transaction row (`neuron_transactions`). -/
structure Transaction where
  id : Nat
  userId : Int
  amount : Int
  balanceAfter : Int
  transactionType : TransactionType
  description : String
  expiresAt : Option Int
  referenceId : String
  metadata : List (String × String)
deriving DecidableEq

/-- LLM usage row (`llm_usage`). -/
structure LLMUsage where
  id : Nat
  userId : Int
  modelName : String
  promptTokens : Int
  completionTokens : Int
  neuronsCost : Int
  transactionId : Option Nat
  requestHash : String
  requestText : String
  responseText : String
  metadata : List (String × String)
deriving DecidableEq

/-- The relational state shared by the three packages.  `transactions`
and `llmUsage` are append-only, so list order is `created_at` order; the
`next…` counters model the SQL id sequences. -/
structure DB where
  plans : List Plan
  subscriptions : List Subscription
  balances : List Balance
  transactions : List Transaction
  llmUsage : List LLMUsage
  nextTxId : Nat
  nextUsageId : Nat
deriving DecidableEq

/-- Go `Repository.GetPlanByID` (subscription): first plan with the id, no
activity filter. -/
def GetPlanByID (db : DB) (planId : Int) : Option Plan :=
  (db.plans.filter (fun p => decide (p.id = planId))).head?

/-- Go `Repository.GetPlanByCode` (subscription): first active plan with
the code. -/
def GetPlanByCode (db : DB) (code : String) : Option Plan :=
  (db.plans.filter (fun p => decide (p.code = code) && p.isActive)).head?

/-- Accumulator for `ORDER BY end_date DESC LIMIT 1`: keep the row with
the later end date (the earlier row on ties). -/
def laterEnd (acc : Option Subscription) (s : Subscription) : Option Subscription :=
  match acc with
  | none => some s
  | some b => if b.endDate < s.endDate then some s else some b

/-- The rows matching `user_id = $1 AND status = 'active' AND end_date > NOW()`. -/
def activeSubRows (db : DB) (userId now : Int) : List Subscription :=
  db.subscriptions.filter
    (fun s => decide (s.userId = userId) && decide (s.status = Status.active) && decide (now < s.endDate))

/-- Go `Repository.GetActiveSubscription`: select the live subscription with
the latest end date and load its plan; otherwise synthesize (without any
write) an active 100-year subscription on the `free` plan, or return
nothing when the free plan is absent. -/
def GetActiveSubscription (db : DB) (userId now : Int) : Option Subscription :=
  match (activeSubRows db userId now).foldl laterEnd none with
  | some sub => some { sub with plan := GetPlanByID db sub.planId }
  | none =>
    match GetPlanByCode db "free" with
    | some freePlan =>
      some { id := 0, userId := userId, planId := freePlan.id, status := Status.active,
             startDate := now, endDate := addDateYears now 100, autoRenew := true,
             plan := some freePlan }
    | none => none

/-- Go `Service.GetSubscriptionPlan`: plan of the active subscription, else
the free plan.  `none` covers both the Go error path and the nil plan
returned when the free plan is missing. -/
def GetSubscriptionPlan (db : DB) (userId now : Int) : Option Plan :=
  match GetActiveSubscription db userId now with
  | some sub =>
    match sub.plan with
    | some p => some p
    | none => GetPlanByCode db "free"
  | none => GetPlanByCode db "free"

/-- Loyalty bonus arithmetic shared by both branches of
`Service.GetDailyNeurons`. -/
def applyLoyaltyBonus (dailyNeurons loyaltyBonusPercent : Int) : Int :=
  if loyaltyBonusPercent > 0 then
    dailyNeurons + goQuot (dailyNeurons * loyaltyBonusPercent) 100
  else dailyNeurons

/-- Go `Service.GetDailyNeurons` (subscription): daily neurons of the
active subscription's plan, else of the free plan, else an error. -/
def GetDailyNeurons (db : DB) (userId loyaltyBonusPercent now : Int) : Except String Int :=
  let subPlan :=
    match GetActiveSubscription db userId now with
    | some sub => sub.plan
    | none => none
  match subPlan with
  | some plan => Except.ok (applyLoyaltyBonus plan.dailyNeurons loyaltyBonusPercent)
  | none =>
    match GetPlanByCode db "free" with
    | some freePlan => Except.ok (applyLoyaltyBonus freePlan.dailyNeurons loyaltyBonusPercent)
    | none => Except.error "бесплатный план не найден"

/-- Fresh zero balance row created on first access. -/
def initialBalance (userId : Int) : Balance :=
  { userId := userId, balance := 0, lifetimeEarned := 0, lifetimeSpent := 0,
    lastDailyRewardAt := none }

/-- SQL read of the balance row: SELECT from user_neuron_balance by user id. -/
def findBalance (db : DB) (userId : Int) : Option Balance :=
  db.balances.find? (fun b => decide (b.userId = userId))

/-- Go `Repository.GetBalance` (currency): read the balance row, creating a
zero row when it is absent.  `Repository.AddTransaction` contains the
same read-or-insert logic inline. -/
def GetBalance (db : DB) (userId : Int) : DB × Balance :=
  match findBalance db userId with
  | some b => (db, b)
  | none =>
    let b := initialBalance userId
    ({ db with balances := db.balances ++ [b] }, b)

/-- SQL write of the balance row: UPDATE user_neuron_balance by user id. -/
def setBalanceRow (l : List Balance) (userId : Int) (nb : Balance) : List Balance :=
  l.map (fun b => if b.userId = userId then nb else b)

/-- Go `Repository.AddTransaction`: inside one SQL transaction, read (or
create) the balance row, reject a negative resulting balance with no
partial write, otherwise update the balance (stamping
`last_daily_reward_at` for daily transactions) and append the ledger row
with `balance_after` set.  The error path returns the caller's `db`
unchanged (rollback). -/
def AddTransaction (db : DB) (now : Int) (tx0 : Transaction) : DB × Except String Transaction :=
  let db1 := (GetBalance db tx0.userId).1
  let cur := (GetBalance db tx0.userId).2
  let newBalance := cur.balance + tx0.amount
  if newBalance < 0 then
    (db, Except.error "недостаточно нейронов на балансе")
  else
    let nb : Balance :=
      { userId := tx0.userId
        balance := newBalance
        lifetimeEarned := if tx0.amount > 0 then cur.lifetimeEarned + tx0.amount else cur.lifetimeEarned
        lifetimeSpent := if tx0.amount > 0 then cur.lifetimeSpent else cur.lifetimeSpent + (-tx0.amount)
        lastDailyRewardAt := if tx0.transactionType = TransactionType.daily then some now else cur.lastDailyRewardAt }
    let t := { tx0 with id := db1.nextTxId, balanceAfter := newBalance }
    ({ db1 with balances := setBalanceRow db1.balances tx0.userId nb,
                transactions := db1.transactions ++ [t],
                nextTxId := db1.nextTxId + 1 },
     Except.ok t)

/-- The `WHERE` clause of the expiry sweep's selection: a positive grant
whose `expires_at` passed, with no admin reversal whose `reference_id`
is the grant's id rendered as text. -/
def isExpiredGrant (txs : List Transaction) (now : Int) (t : Transaction) : Bool :=
  (match t.expiresAt with
   | some e => decide (e < now)
   | none => false) &&
  decide (0 < t.amount) &&
  !(txs.any (fun t2 =>
      decide (t2.referenceId = toString t.id) &&
      decide (t2.transactionType = TransactionType.admin) &&
      decide (t2.amount < 0)))

/-- Users owning at least one expired unreversed grant, in first-seen
order (`GROUP BY user_id`). -/
def expiredUsers (db : DB) (now : Int) : List Int :=
  (((db.transactions.filter (isExpiredGrant db.transactions now)).map
      (fun t => t.userId))).dedup

/-- The `(user_id, SUM(amount))` rows of the sweep's selection query. -/
def expiredEntries (db : DB) (now : Int) : List (Int × Int) :=
  (expiredUsers db now).map (fun u =>
    (u, ((db.transactions.filter (isExpiredGrant db.transactions now)).filter
          (fun t => decide (t.userId = u))).foldl (fun acc t => acc + t.amount) 0))

/-- The per-entry debit loop of `Repository.ExpireNeurons`: read the
user's balance (failing the whole sweep when the row is missing), debit
`min(expired, balance)` when positive and append the `admin` reversal
tagged `expire_system`. -/
def expireLoop (now : Int) : DB → List (Int × Int) → Except String DB
  | db, [] => Except.ok db
  | db, (u, amt) :: rest =>
    match findBalance db u with
    | none => Except.error "ошибка получения баланса для списания"
    | some cur =>
      let amountToExpire := if cur.balance < amt then cur.balance else amt
      if amountToExpire ≤ 0 then expireLoop now db rest
      else
        let newBalance := cur.balance - amountToExpire
        let t : Transaction :=
          { id := db.nextTxId, userId := u, amount := -amountToExpire,
            balanceAfter := newBalance, transactionType := TransactionType.admin,
            description := "Истечение срока действия нейронов",
            expiresAt := none, referenceId := "expire_system", metadata := [] }
        expireLoop now
          { db with balances := setBalanceRow db.balances u { cur with balance := newBalance },
                    transactions := db.transactions ++ [t],
                    nextTxId := db.nextTxId + 1 }
          rest

/-- Go `Repository.ExpireNeurons`: run the selection once against the
current ledger, then debit each user inside one SQL transaction; any
failure rolls the whole sweep back.  Returns the number of selected
entries. -/
def ExpireNeurons (db : DB) (now : Int) : DB × Except String Nat :=
  let entries := expiredEntries db now
  match expireLoop now db entries with
  | Except.ok db2 => (db2, Except.ok entries.length)
  | Except.error e => (db, Except.error e)

/-- Go `Service.AddDailyNeurons` (currency): read the balance, reject with
`AlreadyGranted` inside the 20-hour window, otherwise resolve the daily
amount and plan, stamp an expiry `neuron_expiry_days` ahead and apply a
`daily` ledger transaction.  The `none`-plan branch stands for the Go
nil-pointer failure that a missing plan would cause. -/
def AddDailyNeurons (db : DB) (userId loyaltyBonusPercent now : Int) : DB × Except String Transaction :=
  let db1 := (GetBalance db userId).1
  let bal := (GetBalance db userId).2
  if !bal.CanReceiveDailyReward now then
    (db1, Except.error "ежедневное вознаграждение уже получено")
  else
    match GetDailyNeurons db1 userId loyaltyBonusPercent now with
    | Except.error e => (db1, Except.error e)
    | Except.ok dailyNeurons =>
      match GetSubscriptionPlan db1 userId now with
      | none => (db1, Except.error "план подписки не найден")
      | some plan =>
        let expiresAt := addDateDays now plan.GetNeuronExpiryDays
        AddTransaction db1 now
          { id := 0, userId := userId, amount := dailyNeurons, balanceAfter := 0,
            transactionType := TransactionType.daily,
            description := "Ежедневное начисление: " ++ toString dailyNeurons ++ " нейронов",
            expiresAt := some expiresAt, referenceId := "",
            metadata := [("loyalty_bonus_percent", toString loyaltyBonusPercent),
                         ("expiry_days", toString plan.GetNeuronExpiryDays),
                         ("subscription_plan", plan.code)] }

/-- Go `Service.AddNeurons` (currency): generic positive grant with an
optional expiry. -/
def AddNeurons (db : DB) (userId amount : Int) (txType : TransactionType)
    (description : String) (metadata : List (String × String))
    (referenceId : String) (expiryDays now : Int) : DB × Except String Transaction :=
  if amount ≤ 0 then
    (db, Except.error "сумма должна быть положительной")
  else
    let expiresAt := if expiryDays > 0 then some (addDateDays now expiryDays) else none
    AddTransaction db now
      { id := 0, userId := userId, amount := amount, balanceAfter := 0,
        transactionType := txType, description := description,
        expiresAt := expiresAt, referenceId := referenceId, metadata := metadata }

/-- Go `Service.SpendNeurons` (currency): generic positive debit, delegated
to `AddTransaction` with the negated amount. -/
def SpendNeurons (db : DB) (userId amount : Int) (txType : TransactionType)
    (description : String) (metadata : List (String × String))
    (referenceId : String) (now : Int) : DB × Except String Transaction :=
  if amount ≤ 0 then
    (db, Except.error "сумма должна быть положительной")
  else
    AddTransaction db now
      { id := 0, userId := userId, amount := -amount, balanceAfter := 0,
        transactionType := txType, description := description,
        expiresAt := none, referenceId := referenceId, metadata := metadata }

/-- Go `Service.HasEnoughNeurons` (currency): non-mutating sufficiency
pre-check (the `DB` result only carries the lazily created zero row). -/
def HasEnoughNeurons (db : DB) (userId amount : Int) : DB × Bool :=
  let p := GetBalance db userId
  (p.1, decide (amount ≤ p.2.balance))

/-- Go `Repository.GetLLMUsageByHash`: most recent usage row with the
fingerprint (`ORDER BY created_at DESC LIMIT 1` over the append-only
log). -/
def GetLLMUsageByHash (db : DB) (requestHash : String) : Option LLMUsage :=
  (db.llmUsage.filter (fun u => decide (u.requestHash = requestHash))).getLast?

/-- Go `Repository.AddLLMUsage`: append the usage row, drawing its id from
the sequence. -/
def AddLLMUsage (db : DB) (u0 : LLMUsage) : DB × LLMUsage :=
  let u := { u0 with id := db.nextUsageId }
  ({ db with llmUsage := db.llmUsage ++ [u], nextUsageId := db.nextUsageId + 1 }, u)

/-- Go `Service.generateRequestHash`: sha256-hex over the request text
followed by the model name; two `Write` calls hash the concatenation. -/
def generateRequestHash (sha : String → String) (requestText modelName : String) : String :=
  sha (requestText ++ modelName)

/-- The `usage`-kind debit transaction `Service.RecordLLMUsage` builds
(`tx := &Transaction{…}` in the source) before applying it. -/
def usageTx (userId : Int) (modelName : String)
    (promptTokens completionTokens neuronsCost : Int) : Transaction :=
  { id := 0, userId := userId, amount := -neuronsCost, balanceAfter := 0,
    transactionType := TransactionType.usage,
    description := "Использование нейросети " ++ modelName ++ " (" ++ toString neuronsCost ++ " нейронов)",
    expiresAt := none, referenceId := "",
    metadata := [("model", modelName),
                 ("prompt_tokens", toString promptTokens),
                 ("completion_tokens", toString completionTokens)] }

/-- Go `Service.RecordLLMUsage` (currency): fingerprint the request; on a
cache hit record a zero-cost usage carrying the cached response and no
ledger mutation; on a miss with a positive cost check the balance, debit
via a `usage` transaction and record the usage linked to it; with no
cost just record the usage. -/
def RecordLLMUsage (sha : String → String) (db : DB) (userId : Int)
    (modelName requestText responseText : String)
    (promptTokens completionTokens neuronsCost : Int)
    (metadata : List (String × String)) (now : Int) : DB × Except String LLMUsage :=
  let requestHash := generateRequestHash sha requestText modelName
  match GetLLMUsageByHash db requestHash with
  | some cachedUsage =>
    let p := AddLLMUsage db
      { id := 0, userId := userId, modelName := modelName,
        promptTokens := promptTokens, completionTokens := completionTokens,
        neuronsCost := 0, transactionId := none,
        requestHash := requestHash, requestText := requestText,
        responseText := cachedUsage.responseText,
        metadata := metadata ++ [("cached", "true"), ("cached_id", toString cachedUsage.id)] }
    (p.1, Except.ok p.2)
  | none =>
    if neuronsCost > 0 then
      let db1 := (GetBalance db userId).1
      let bal := (GetBalance db userId).2
      if bal.balance < neuronsCost then
        (db1, Except.error "недостаточно нейронов для выполнения запроса")
      else
        let q := AddTransaction db1 now
          (usageTx userId modelName promptTokens completionTokens neuronsCost)
        match q.2 with
        | Except.error e => (q.1, Except.error ("ошибка списания нейронов: " ++ e))
        | Except.ok t =>
          let p := AddLLMUsage q.1
            { id := 0, userId := userId, modelName := modelName,
              promptTokens := promptTokens, completionTokens := completionTokens,
              neuronsCost := neuronsCost, transactionId := some t.id,
              requestHash := requestHash, requestText := requestText,
              responseText := responseText, metadata := metadata }
          (p.1, Except.ok p.2)
    else
      let p := AddLLMUsage db
        { id := 0, userId := userId, modelName := modelName,
          promptTokens := promptTokens, completionTokens := completionTokens,
          neuronsCost := 0, transactionId := none,
          requestHash := requestHash, requestText := requestText,
          responseText := responseText, metadata := metadata }
      (p.1, Except.ok p.2)

/-- LLM provider family (`internal/llm` model, `ModelType`). -/
inductive ModelType where
  | openai
  | claude
  | grok
  | gemini
deriving DecidableEq

/-- The per-model-family cost settings (`config.SubscriptionConfig`). -/
structure SubscriptionConfig where
  baseModelCost : Int
  premiumModelCost : Int
  proModelCost : Int
deriving DecidableEq

/-- An inbound LLM request (`internal/llm` model, `Request`; fields the
metering pipeline reads). -/
structure Request where
  userId : Int
  userMessage : String
  modelType : ModelType
  modelName : String
  conversationId : String
deriving DecidableEq

/-- An LLM response (`internal/llm` model, `Response`; fields the
metering pipeline reads and writes). -/
structure Response where
  userId : Int
  modelName : String
  responseText : String
  promptTokens : Int
  completionTokens : Int
  neuronsCost : Int
deriving DecidableEq

/-- Character-list core of Go `strings.Contains`. -/
def listHasSub (needle : List Char) : List Char → Bool
  | [] => needle.isEmpty
  | c :: rest => needle.isPrefixOf (c :: rest) || listHasSub needle rest

/-- Go `strings.Contains s sub` (for valid UTF-8, byte-level containment
coincides with character-level containment). -/
def strContains (s sub : String) : Bool :=
  listHasSub sub.data s.data

/-- Go `Service.GetRequestCost` (llm): substring-match the model name
against the known families in a fixed order, defaulting to the base
model cost; the Go function never returns a non-nil error. -/
def GetRequestCost (cfg : SubscriptionConfig) (modelType : ModelType) (modelName : String) :
    Except String Int :=
  let cost :=
    if strContains modelName "gpt-4" then cfg.proModelCost
    else if strContains modelName "gpt-3.5" then cfg.baseModelCost
    else if strContains modelName "claude-3-opus" then cfg.proModelCost
    else if strContains modelName "claude-3-sonnet" then cfg.premiumModelCost
    else if strContains modelName "claude-3-haiku" then cfg.baseModelCost
    else if strContains modelName "grok-2" then cfg.proModelCost
    else if strContains modelName "grok-1" then cfg.baseModelCost
    else if strContains modelName "gemini-1.5" then cfg.premiumModelCost
    else if strContains modelName "gemini-1.0" then cfg.baseModelCost
    else cfg.baseModelCost
  Except.ok cost

/-- Go `Service.ApplyNeuronDiscount` (llm): apply the plan's
`neuron_discount` percentage with integer arithmetic, floored at one
neuron; on a resolution failure the cost is returned undiscounted. -/
def ApplyNeuronDiscount (db : DB) (userId cost now : Int) : Int :=
  match GetSubscriptionPlan db userId now with
  | none => cost
  | some plan =>
    let discount := plan.GetNeuronDiscount
    if discount ≤ 0 then cost
    else
      let discountedCost := cost - goQuot (cost * discount) 100
      if discountedCost < 1 then 1 else discountedCost

/-- Go `Service.CheckModelAccess` (llm): membership of the model name in
the plan's `available_models`. -/
def CheckModelAccess (db : DB) (userId : Int) (modelName : String) (now : Int) :
    Except String Bool :=
  match GetSubscriptionPlan db userId now with
  | none => Except.error "план подписки не найден"
  | some plan => Except.ok (plan.GetAvailableModels.contains modelName)

/-- Go `Service.CheckRequestLength` (llm): bound the rune length of the
message by the plan's limit; zero means unlimited. -/
def CheckRequestLength (db : DB) (userId : Int) (message : String) (now : Int) :
    Except String Unit :=
  match GetSubscriptionPlan db userId now with
  | none => Except.error "план подписки не найден"
  | some plan =>
    if plan.maxRequestLength = 0 then Except.ok ()
    else if plan.maxRequestLength < (message.length : Int) then
      Except.error "длина запроса превышает максимально допустимую"
    else Except.ok ()

/-- Go `Service.ProcessRequest` (llm): the metered-request pipeline.  The
provider clients map becomes a function to an optional call; the
external invocation happens between the non-mutating sufficiency
pre-check and `RecordLLMUsage`.  A `RecordLLMUsage` failure is logged
and deliberately not returned («Не возвращаем ошибку, так как запрос
уже выполнен»): only its `DB` effect is kept. -/
def ProcessRequest (clients : ModelType → Option (Request → Except String Response))
    (cfg : SubscriptionConfig) (sha : String → String)
    (db : DB) (req : Request) (now : Int) : DB × Except String Response :=
  match clients req.modelType with
  | none => (db, Except.error "клиент для типа модели не найден")
  | some client =>
    match CheckModelAccess db req.userId req.modelName now with
    | Except.error e => (db, Except.error e)
    | Except.ok hasAccess =>
      if !hasAccess then (db, Except.error "нет доступа к выбранной модели")
      else
        match CheckRequestLength db req.userId req.userMessage now with
        | Except.error e => (db, Except.error e)
        | Except.ok _ =>
          match GetRequestCost cfg req.modelType req.modelName with
          | Except.error e => (db, Except.error e)
          | Except.ok cost =>
            let db1 := (HasEnoughNeurons db req.userId cost).1
            if !(HasEnoughNeurons db req.userId cost).2 then
              (db1, Except.error "недостаточно нейронов для выполнения запроса")
            else
              match client req with
              | Except.error e => (db1, Except.error ("ошибка выполнения запроса к нейросети: " ++ e))
              | Except.ok response =>
                let actualCost := ApplyNeuronDiscount db1 req.userId cost now
                let response1 := { response with neuronsCost := actualCost }
                let r := RecordLLMUsage sha db1 req.userId req.modelName req.userMessage
                           response1.responseText response1.promptTokens
                           response1.completionTokens actualCost
                           [("model_name", req.modelName), ("conversation_id", req.conversationId)]
                           now
                (r.1, Except.ok response1)

/-- Fixture: a user holding balance 10 with one expired grant of 3
(`expires_at` in the past, no reversal yet). -/
def c1db : DB :=
  { plans := [], subscriptions := [],
    balances := [{ userId := 1, balance := 10, lifetimeEarned := 10, lifetimeSpent := 0, lastDailyRewardAt := none }],
    transactions := [{ id := 1, userId := 1, amount := 3, balanceAfter := 10,
                       transactionType := TransactionType.daily, description := "",
                       expiresAt := some 0, referenceId := "", metadata := [] }],
    llmUsage := [], nextTxId := 2, nextUsageId := 1 }

/-- Fixture: an active free plan granting a 99 percent neuron discount. -/
def freePlan99 : Plan :=
  { id := 1, code := "free", name := "Free", priceMonthly := 0, priceYearly := 0,
    dailyNeurons := 5, maxRequestLength := 0, contextMessages := 5,
    features := [("neuron_discount", FeatureValue.num 99)],
    isActive := true }

/-- Fixture: a database whose only plan is `freePlan99`. -/
def dbDiscount99 : DB :=
  { plans := [freePlan99], subscriptions := [], balances := [],
    transactions := [], llmUsage := [], nextTxId := 1, nextUsageId := 1 }

/-- Fixture: an active free plan with a 50 percent discount, five daily
neurons and one allowed model. -/
def freePlan50 : Plan :=
  { id := 1, code := "free", name := "Free", priceMonthly := 0, priceYearly := 0,
    dailyNeurons := 5, maxRequestLength := 0, contextMessages := 5,
    features := [("neuron_discount", FeatureValue.num 50),
                 ("available_models", FeatureValue.strList ["llama"])],
    isActive := true }

/-- Fixture: the balance row of the daily-grant boundary scenario (last
grant at time 0). -/
def balW6 : Balance :=
  { userId := 1, balance := 2, lifetimeEarned := 2, lifetimeSpent := 0, lastDailyRewardAt := some 0 }

/-- Fixture: database for the daily-grant boundary scenario. -/
def dbW6 : DB :=
  { plans := [freePlan50], subscriptions := [], balances := [balW6],
    transactions := [], llmUsage := [], nextTxId := 1, nextUsageId := 1 }

/-- The ledger row a successful `AddTransaction` appends: the input row
with the sequence id and the post-application balance filled in. -/
def txApplied (db : DB) (tx0 : Transaction) : Transaction :=
  { tx0 with id := (GetBalance db tx0.userId).1.nextTxId,
             balanceAfter := (GetBalance db tx0.userId).2.balance + tx0.amount }

/-- The balance row a successful `AddTransaction` writes back. -/
def balApplied (db : DB) (now : Int) (tx0 : Transaction) : Balance :=
  { userId := tx0.userId
    balance := (GetBalance db tx0.userId).2.balance + tx0.amount
    lifetimeEarned := if tx0.amount > 0 then (GetBalance db tx0.userId).2.lifetimeEarned + tx0.amount else (GetBalance db tx0.userId).2.lifetimeEarned
    lifetimeSpent := if tx0.amount > 0 then (GetBalance db tx0.userId).2.lifetimeSpent else (GetBalance db tx0.userId).2.lifetimeSpent + (-tx0.amount)
    lastDailyRewardAt := if tx0.transactionType = TransactionType.daily then some now else (GetBalance db tx0.userId).2.lastDailyRewardAt }

/-- Fixture: zero-cost model pricing for the swallowed-error scenario. -/
def cfgW5 : SubscriptionConfig :=
  { baseModelCost := 0, premiumModelCost := 0, proModelCost := 0 }

/-- Fixture: the external response the stub client returns. -/
def respW5 : Response :=
  { userId := 1, modelName := "llama", responseText := "ok-text",
    promptTokens := 1, completionTokens := 1, neuronsCost := 0 }

/-- Fixture: a stub provider client that always succeeds. -/
def clientW5 : Request → Except String Response :=
  fun _ => Except.ok respW5

/-- Fixture: a clients map holding only the openai stub. -/
def clientsW5 : ModelType → Option (Request → Except String Response)
  | ModelType.openai => some clientW5
  | _ => none

/-- Fixture: the inbound request of the swallowed-error scenario. -/
def reqW5 : Request :=
  { userId := 1, userMessage := "hi", modelType := ModelType.openai,
    modelName := "llama", conversationId := "" }

/-- Fixture: user 1 with zero balance on the discounted free plan, so the
pre-check passes at base cost 0 while the discounted floor cost 1 makes
the recording step fail. -/
def dbW5 : DB :=
  { plans := [freePlan50], subscriptions := [],
    balances := [{ userId := 1, balance := 0, lifetimeEarned := 0, lifetimeSpent := 0,
                   lastDailyRewardAt := none }],
    transactions := [], llmUsage := [], nextTxId := 1, nextUsageId := 1 }

/-- Fixture: the balance row of the insufficient-spend scenario. -/
def balW2 : Balance :=
  { userId := 1, balance := 2, lifetimeEarned := 2, lifetimeSpent := 0, lastDailyRewardAt := none }

/-- Fixture: database of the insufficient-spend scenario. -/
def dbW2 : DB :=
  { plans := [], subscriptions := [], balances := [balW2],
    transactions := [], llmUsage := [], nextTxId := 1, nextUsageId := 1 }

/-- Fixture: a spend of 3 against balance 2. -/
def txW2 : Transaction :=
  { id := 0, userId := 1, amount := -3, balanceAfter := 0,
    transactionType := TransactionType.usage, description := "spend",
    expiresAt := none, referenceId := "", metadata := [] }

/-- Fixture: a grant of 5 applied to `dbW2`. -/
def txW3 : Transaction :=
  { id := 0, userId := 1, amount := 5, balanceAfter := 0,
    transactionType := TransactionType.bonus, description := "grant",
    expiresAt := none, referenceId := "", metadata := [] }

/-- Fixture: the database after applying `txW3` to `dbW2`. -/
def dbW3r : DB := (AddTransaction dbW2 0 txW3).1

/-- Fixture: the ledger row `txW3` becomes once applied. -/
def txW3r : Transaction := { txW3 with id := 1, balanceAfter := 7 }

/-- Fixture: a prior usage record holding the fingerprint of prompt `hi`
against model `m1` under the identity hash. -/
def usageW4 : LLMUsage :=
  { id := 1, userId := 2, modelName := "m1", promptTokens := 1, completionTokens := 1,
    neuronsCost := 1, transactionId := some 1, requestHash := "him1", requestText := "hi",
    responseText := "cached-answer", metadata := [] }

/-- Fixture: database already holding `usageW4`. -/
def dbW4c : DB :=
  { plans := [], subscriptions := [], balances := [], transactions := [],
    llmUsage := [usageW4], nextTxId := 2, nextUsageId := 2 }

/-- Fixture: the balance row of the double-metering scenario. -/
def balW4 : Balance :=
  { userId := 1, balance := 10, lifetimeEarned := 10, lifetimeSpent := 0, lastDailyRewardAt := none }

/-- Fixture: database of the double-metering scenario (no usage yet). -/
def dbW4 : DB :=
  { plans := [], subscriptions := [], balances := [balW4],
    transactions := [], llmUsage := [], nextTxId := 1, nextUsageId := 1 }

theorem GetBalance_found (db : DB) (uid : Int) (b : Balance)
    (h : findBalance db uid = some b) : GetBalance db uid = (db, b) := by
  simp [GetBalance, h]

theorem GetBalance_missing (db : DB) (uid : Int)
    (h : findBalance db uid = none) :
    GetBalance db uid =
      ({ db with balances := db.balances ++ [initialBalance uid] }, initialBalance uid) := by
  simp [GetBalance, h]

theorem find?_setBalanceRow_some (l : List Balance) (uid : Int) (nb b : Balance)
    (hnb : nb.userId = uid)
    (h : l.find? (fun x => decide (x.userId = uid)) = some b) :
    (setBalanceRow l uid nb).find? (fun x => decide (x.userId = uid)) = some nb := by
  induction l with
  | nil => simp [List.find?] at h
  | cons x t ih =>
    by_cases hx : x.userId = uid
    · simp [setBalanceRow, List.find?, hx, hnb]
    · rw [List.find?_cons_of_neg _ (by simp [hx])] at h
      simpa [setBalanceRow, List.find?_cons_of_neg, hx] using ih h

theorem setBalanceRow_of_find?_none (l : List Balance) (uid : Int) (nb : Balance)
    (h : l.find? (fun x => decide (x.userId = uid)) = none) :
    setBalanceRow l uid nb = l := by
  induction l with
  | nil => rfl
  | cons x t ih =>
    by_cases hx : x.userId = uid
    · rw [List.find?_cons_of_pos _ (by simp [hx])] at h
      exact absurd h (by simp)
    · rw [List.find?_cons_of_neg _ (by simp [hx])] at h
      have ht := ih h
      simp only [setBalanceRow, List.map_cons, if_neg hx] at ht ⊢
      rw [ht]

theorem find?_setBalanceRow_getBalance (db : DB) (uid : Int) (nb : Balance)
    (hnb : nb.userId = uid) :
    (setBalanceRow (GetBalance db uid).1.balances uid nb).find?
      (fun x => decide (x.userId = uid)) = some nb := by
  cases hfb : findBalance db uid with
  | some b =>
    rw [GetBalance_found db uid b hfb]
    exact find?_setBalanceRow_some db.balances uid nb b hnb hfb
  | none =>
    rw [GetBalance_missing db uid hfb]
    unfold findBalance at hfb
    show ((setBalanceRow (db.balances ++ [initialBalance uid]) uid nb).find? _) = some nb
    rw [show setBalanceRow (db.balances ++ [initialBalance uid]) uid nb
          = setBalanceRow db.balances uid nb ++ setBalanceRow [initialBalance uid] uid nb from
        List.map_append _ _ _]
    rw [setBalanceRow_of_find?_none db.balances uid nb hfb]
    rw [List.find?_append, hfb]
    simp [setBalanceRow, initialBalance, hnb]

theorem GetBalance_fst_transactions (db : DB) (uid : Int) :
    (GetBalance db uid).1.transactions = db.transactions := by
  cases hfb : findBalance db uid <;> simp [GetBalance, hfb]

theorem GetBalance_fst_nextTxId (db : DB) (uid : Int) :
    (GetBalance db uid).1.nextTxId = db.nextTxId := by
  cases hfb : findBalance db uid <;> simp [GetBalance, hfb]

theorem GetBalance_fst_llmUsage (db : DB) (uid : Int) :
    (GetBalance db uid).1.llmUsage = db.llmUsage := by
  cases hfb : findBalance db uid <;> simp [GetBalance, hfb]

theorem AddTransaction_insufficient (db : DB) (now : Int) (tx0 : Transaction)
    (h : (GetBalance db tx0.userId).2.balance + tx0.amount < 0) :
    AddTransaction db now tx0 = (db, Except.error "недостаточно нейронов на балансе") := by
  simp only [AddTransaction]
  rw [if_pos h]

theorem AddTransaction_ok_eq (db : DB) (now : Int) (tx0 : Transaction)
    (h : 0 ≤ (GetBalance db tx0.userId).2.balance + tx0.amount) :
    AddTransaction db now tx0 =
      ({ (GetBalance db tx0.userId).1 with
           balances := setBalanceRow (GetBalance db tx0.userId).1.balances tx0.userId (balApplied db now tx0),
           transactions := (GetBalance db tx0.userId).1.transactions ++ [txApplied db tx0],
           nextTxId := (GetBalance db tx0.userId).1.nextTxId + 1 },
       Except.ok (txApplied db tx0)) := by
  simp only [AddTransaction, txApplied, balApplied]
  rw [if_neg (not_lt.mpr h)]

theorem findBalance_AddTransaction_ok (db : DB) (now : Int) (tx0 : Transaction)
    (h : 0 ≤ (GetBalance db tx0.userId).2.balance + tx0.amount) :
    findBalance (AddTransaction db now tx0).1 tx0.userId = some (balApplied db now tx0) := by
  rw [AddTransaction_ok_eq db now tx0 h]
  exact find?_setBalanceRow_getBalance db tx0.userId (balApplied db now tx0) rfl

/-- C2: a spend attempt that would drive the balance negative fails with
the insufficient-balance error and leaves the database — balance row and
ledger alike — exactly as it was. -/
theorem addTransaction_insufficient_balance_atomic
    (db : DB) (now : Int) (tx : Transaction) (bal : Balance) (a : Int)
    (hfind : findBalance db tx.userId = some bal)
    (hamt : tx.amount = -a)
    (hlt : bal.balance - a < 0) :
    AddTransaction db now tx = (db, Except.error "недостаточно нейронов на балансе") := by
  apply AddTransaction_insufficient
  rw [GetBalance_found db tx.userId bal hfind]
  simp only
  omega

/-- C3: every successful `AddTransaction` yields a balance row equal to
the old amount plus the delta and never negative (I1), lifetime counters
updated by the sign of the delta and never decreasing (I2), and an
appended ledger row whose `balance_after` equals the balance immediately
after application (I3). -/
theorem addTransaction_ok_invariants
    (db : DB) (now : Int) (tx0 : Transaction) (db2 : DB) (t : Transaction)
    (h : AddTransaction db now tx0 = (db2, Except.ok t)) :
    ∃ nb : Balance, findBalance db2 tx0.userId = some nb ∧
      nb.balance = (GetBalance db tx0.userId).2.balance + tx0.amount ∧
      0 ≤ nb.balance ∧
      nb.lifetimeEarned = (if tx0.amount > 0 then (GetBalance db tx0.userId).2.lifetimeEarned + tx0.amount else (GetBalance db tx0.userId).2.lifetimeEarned) ∧
      nb.lifetimeSpent = (if tx0.amount > 0 then (GetBalance db tx0.userId).2.lifetimeSpent else (GetBalance db tx0.userId).2.lifetimeSpent - tx0.amount) ∧
      (GetBalance db tx0.userId).2.lifetimeEarned ≤ nb.lifetimeEarned ∧
      (GetBalance db tx0.userId).2.lifetimeSpent ≤ nb.lifetimeSpent ∧
      t.balanceAfter = nb.balance ∧
      t.amount = tx0.amount ∧
      db2.transactions = db.transactions ++ [t] := by
  have h2 : 0 ≤ (GetBalance db tx0.userId).2.balance + tx0.amount := by
    by_contra hneg
    rw [AddTransaction_insufficient db now tx0 (by omega)] at h
    exact absurd (congrArg Prod.snd h) (by simp)
  rw [AddTransaction_ok_eq db now tx0 h2] at h
  have hdb : db2 = { (GetBalance db tx0.userId).1 with
      balances := setBalanceRow (GetBalance db tx0.userId).1.balances tx0.userId (balApplied db now tx0),
      transactions := (GetBalance db tx0.userId).1.transactions ++ [txApplied db tx0],
      nextTxId := (GetBalance db tx0.userId).1.nextTxId + 1 } :=
    (Prod.mk.injEq .. ▸ h).1.symm
  have ht : t = txApplied db tx0 := by
    have := (Prod.mk.injEq .. ▸ h).2
    exact (Except.ok.injEq .. ▸ this).symm
  refine ⟨balApplied db now tx0, ?_, ?_, h2, ?_, ?_, ?_, ?_, ?_, ?_, ?_⟩
  · rw [hdb]
    exact find?_setBalanceRow_getBalance db tx0.userId (balApplied db now tx0) rfl
  · rfl
  · rfl
  · simp only [balApplied]
    split <;> omega
  · simp only [balApplied]
    split <;> omega
  · simp only [balApplied]
    split <;> omega
  · rw [ht]
    rfl
  · rw [ht]
    rfl
  · rw [hdb, ht]
    simp [GetBalance_fst_transactions]

/-- C1 (refuting idempotence): on `c1db` the first sweep debits the
expired 3 neurons (10 → 7), but because the inserted reversal carries
`reference_id = "expire_system"` instead of the grant's id, the
`NOT EXISTS` exclusion never matches it and a second sweep debits the
same grant again (7 → 4). -/
theorem expireNeurons_double_debit :
    (findBalance (ExpireNeurons c1db 100).1 1).map Balance.balance = some 7 ∧
    (findBalance (ExpireNeurons (ExpireNeurons c1db 100).1 100).1 1).map Balance.balance = some 4 := by
  exact ⟨by decide, by decide⟩

/-- C6: with a recorded last grant at `t0`, `AddDailyNeurons` rejects
with the already-granted error whenever less than 20 hours have passed
and succeeds (appending a `daily` grant of the resolved amount) once
more than 20 hours have passed; a user with no recorded grant is always
eligible. -/
theorem daily_grant_window :
    (∀ (b : Balance) (now : Int), b.lastDailyRewardAt = none → b.CanReceiveDailyReward now = true) ∧
    (∀ (db : DB) (uid loyalty now : Int) (bal : Balance) (t0 : Int),
      findBalance db uid = some bal → bal.lastDailyRewardAt = some t0 →
      now - t0 < 20 * hourSeconds →
      AddDailyNeurons db uid loyalty now = (db, Except.error "ежедневное вознаграждение уже получено")) ∧
    (∀ (db : DB) (uid loyalty now : Int) (bal : Balance) (t0 d : Int) (plan : Plan),
      findBalance db uid = some bal → bal.lastDailyRewardAt = some t0 →
      20 * hourSeconds < now - t0 →
      GetDailyNeurons db uid loyalty now = Except.ok d →
      GetSubscriptionPlan db uid now = some plan →
      0 ≤ bal.balance + d →
      ∃ (db2 : DB) (t : Transaction),
        AddDailyNeurons db uid loyalty now = (db2, Except.ok t) ∧ t.amount = d) := by
  refine ⟨?_, ?_, ?_⟩
  · intro b now hb
    simp [Balance.CanReceiveDailyReward, hb]
  · intro db uid loyalty now bal t0 hfind ht0 hlt
    have hcan : bal.CanReceiveDailyReward now = false := by
      simp only [Balance.CanReceiveDailyReward, ht0, decide_eq_false_iff_not]
      simp only [hourSeconds] at hlt ⊢
      omega
    simp only [AddDailyNeurons]
    rw [GetBalance_found db uid bal hfind]
    simp only [hcan]
    rfl
  · intro db uid loyalty now bal t0 d plan hfind ht0 hgt hd hplan hbal
    have hcan : bal.CanReceiveDailyReward now = true := by
      simp only [Balance.CanReceiveDailyReward, ht0, decide_eq_true_eq]
      simp only [hourSeconds] at hgt ⊢
      omega
    simp only [AddDailyNeurons]
    rw [GetBalance_found db uid bal hfind]
    simp only [hcan, Bool.not_true, Bool.false_eq_true, if_false, hd, hplan]
    refine ⟨_, _, AddTransaction_ok_eq db now _ ?_, rfl⟩
    rw [GetBalance_found db uid bal hfind]
    exact hbal

/-- C7: the plan discount applied by `ApplyNeuronDiscount` never drives
a cost of at least one neuron below one. -/
theorem applyNeuronDiscount_floor (db : DB) (userId cost now : Int) (h : 1 ≤ cost) :
    1 ≤ ApplyNeuronDiscount db userId cost now := by
  unfold ApplyNeuronDiscount
  cases GetSubscriptionPlan db userId now with
  | none => exact h
  | some plan =>
    simp only
    split
    · exact h
    · split
      · omega
      · omega

/-- C7 witness: the 99 percent discount of `dbDiscount99` charges 1 for
a base cost of 1 and stays at the floor. -/
theorem applyNeuronDiscount_floor_witness :
    (1 : Int) ≤ 1 ∧ ApplyNeuronDiscount dbDiscount99 1 1 0 = 1 ∧
    1 ≤ ApplyNeuronDiscount dbDiscount99 1 1 0 :=
  ⟨by decide, by decide, applyNeuronDiscount_floor dbDiscount99 1 1 0 (by decide)⟩

/-- C8 (refuting unconditional pair-injectivity): the fingerprint hashes
the bare concatenation of prompt and model, so the distinct pairs
("ab", "c") and ("a", "bc") collide for every hash function — even an
injective (collision-free) one. -/
theorem generateRequestHash_pair_collision :
    generateRequestHash id "ab" "c" = generateRequestHash id "a" "bc" ∧
    ("ab", "c") ≠ (("a", "bc") : String × String) :=
  ⟨rfl, by decide⟩

/-- C8 (amended): the fingerprint is stable — equal pairs hash equal —
and injective on pairs whose concatenations differ, assuming the
underlying hash is collision-free. -/
theorem generateRequestHash_concat_injective (sha : String → String)
    (hinj : Function.Injective sha) (p1 m1 p2 m2 : String) :
    (p1 = p2 → m1 = m2 → generateRequestHash sha p1 m1 = generateRequestHash sha p2 m2) ∧
    (p1 ++ m1 ≠ p2 ++ m2 → generateRequestHash sha p1 m1 ≠ generateRequestHash sha p2 m2) := by
  constructor
  · intro hp hm
    rw [hp, hm]
  · intro hne heq
    exact hne (hinj heq)

/-- C8 witness: with the identity as a collision-free hash, distinct
concatenations yield distinct fingerprints. -/
theorem generateRequestHash_concat_injective_witness :
    ("a" : String) ++ "b" ≠ "c" ++ "d" ∧
    generateRequestHash id "a" "b" ≠ generateRequestHash id "c" "d" :=
  ⟨by decide,
   (generateRequestHash_concat_injective id (fun a b hab => hab) "a" "b" "c" "d").2 (by decide)⟩

/-- C10: `GetRequestCost` always returns a cost (never an error), checks
the model families in the fixed order of the source and bills any
unmatched model name at the base model cost. -/
theorem getRequestCost_total_families :
    (∀ (cfg : SubscriptionConfig) (mt : ModelType) (name : String),
      ∃ c : Int, GetRequestCost cfg mt name = Except.ok c) ∧
    (∀ (cfg : SubscriptionConfig) (mt : ModelType) (name : String),
      strContains name "gpt-4" = true →
      GetRequestCost cfg mt name = Except.ok cfg.proModelCost) ∧
    (∀ (cfg : SubscriptionConfig) (mt : ModelType) (name : String),
      strContains name "gpt-4" = false → strContains name "gpt-3.5" = true →
      GetRequestCost cfg mt name = Except.ok cfg.baseModelCost) ∧
    (∀ (cfg : SubscriptionConfig) (mt : ModelType) (name : String),
      strContains name "gpt-4" = false → strContains name "gpt-3.5" = false →
      strContains name "claude-3-opus" = true →
      GetRequestCost cfg mt name = Except.ok cfg.proModelCost) ∧
    (∀ (cfg : SubscriptionConfig) (mt : ModelType) (name : String),
      strContains name "gpt-4" = false → strContains name "gpt-3.5" = false →
      strContains name "claude-3-opus" = false → strContains name "claude-3-sonnet" = true →
      GetRequestCost cfg mt name = Except.ok cfg.premiumModelCost) ∧
    (∀ (cfg : SubscriptionConfig) (mt : ModelType) (name : String),
      strContains name "gpt-4" = false → strContains name "gpt-3.5" = false →
      strContains name "claude-3-opus" = false → strContains name "claude-3-sonnet" = false →
      strContains name "claude-3-haiku" = true →
      GetRequestCost cfg mt name = Except.ok cfg.baseModelCost) ∧
    (∀ (cfg : SubscriptionConfig) (mt : ModelType) (name : String),
      strContains name "gpt-4" = false → strContains name "gpt-3.5" = false →
      strContains name "claude-3-opus" = false → strContains name "claude-3-sonnet" = false →
      strContains name "claude-3-haiku" = false → strContains name "grok-2" = true →
      GetRequestCost cfg mt name = Except.ok cfg.proModelCost) ∧
    (∀ (cfg : SubscriptionConfig) (mt : ModelType) (name : String),
      strContains name "gpt-4" = false → strContains name "gpt-3.5" = false →
      strContains name "claude-3-opus" = false → strContains name "claude-3-sonnet" = false →
      strContains name "claude-3-haiku" = false → strContains name "grok-2" = false →
      strContains name "grok-1" = true →
      GetRequestCost cfg mt name = Except.ok cfg.baseModelCost) ∧
    (∀ (cfg : SubscriptionConfig) (mt : ModelType) (name : String),
      strContains name "gpt-4" = false → strContains name "gpt-3.5" = false →
      strContains name "claude-3-opus" = false → strContains name "claude-3-sonnet" = false →
      strContains name "claude-3-haiku" = false → strContains name "grok-2" = false →
      strContains name "grok-1" = false → strContains name "gemini-1.5" = true →
      GetRequestCost cfg mt name = Except.ok cfg.premiumModelCost) ∧
    (∀ (cfg : SubscriptionConfig) (mt : ModelType) (name : String),
      strContains name "gpt-4" = false → strContains name "gpt-3.5" = false →
      strContains name "claude-3-opus" = false → strContains name "claude-3-sonnet" = false →
      strContains name "claude-3-haiku" = false → strContains name "grok-2" = false →
      strContains name "grok-1" = false → strContains name "gemini-1.5" = false →
      strContains name "gemini-1.0" = true →
      GetRequestCost cfg mt name = Except.ok cfg.baseModelCost) ∧
    (∀ (cfg : SubscriptionConfig) (mt : ModelType) (name : String),
      strContains name "gpt-4" = false → strContains name "gpt-3.5" = false →
      strContains name "claude-3-opus" = false → strContains name "claude-3-sonnet" = false →
      strContains name "claude-3-haiku" = false → strContains name "grok-2" = false →
      strContains name "grok-1" = false → strContains name "gemini-1.5" = false →
      strContains name "gemini-1.0" = false →
      GetRequestCost cfg mt name = Except.ok cfg.baseModelCost) := by
  refine ⟨fun cfg mt name => ⟨_, rfl⟩, ?_, ?_, ?_, ?_, ?_, ?_, ?_, ?_, ?_, ?_⟩
  all_goals intro cfg mt name
  all_goals intros
  all_goals simp [GetRequestCost, *]

/-- C10 witness: a name outside every family is billed at the base cost,
and a gpt-4 family name at the pro cost. -/
theorem getRequestCost_total_families_witness :
    GetRequestCost ⟨1, 2, 3⟩ ModelType.openai "llama-7b" = Except.ok 1 ∧
    GetRequestCost ⟨1, 2, 3⟩ ModelType.openai "gpt-4-turbo" = Except.ok 3 :=
  ⟨(getRequestCost_total_families.2.2.2.2.2.2.2.2.2.2 ⟨1, 2, 3⟩ ModelType.openai "llama-7b"
      (by decide) (by decide) (by decide) (by decide) (by decide) (by decide) (by decide)
      (by decide) (by decide)),
   (getRequestCost_total_families.2.1 ⟨1, 2, 3⟩ ModelType.openai "gpt-4-turbo" (by decide))⟩

theorem GetLLMUsageByHash_append_last (db2 db : DB) (u : LLMUsage) (h : String)
    (hl : db2.llmUsage = db.llmUsage ++ [u]) (hu : u.requestHash = h) :
    GetLLMUsageByHash db2 h = some u := by
  simp [GetLLMUsageByHash, hl, List.filter_append, hu, List.getLast?_concat]

theorem GetLLMUsageByHash_append_none (db2 db : DB) (u : LLMUsage) (h : String)
    (hl : db2.llmUsage = db.llmUsage ++ [u]) (hu : u.requestHash ≠ h)
    (h0 : GetLLMUsageByHash db h = none) :
    GetLLMUsageByHash db2 h = none := by
  have hfe : db.llmUsage.filter (fun x => decide (x.requestHash = h)) = [] := by
    simpa [GetLLMUsageByHash, List.getLast?_eq_none_iff] using h0
  simp [GetLLMUsageByHash, hl, List.filter_append, hfe, hu]

theorem RecordLLMUsage_cache_hit (sha : String → String) (db : DB) (uid : Int)
    (modelName requestText responseText : String) (pt ct cost : Int)
    (meta : List (String × String)) (now : Int) (cu : LLMUsage)
    (hc : GetLLMUsageByHash db (generateRequestHash sha requestText modelName) = some cu) :
    RecordLLMUsage sha db uid modelName requestText responseText pt ct cost meta now =
      ({ db with
           llmUsage := db.llmUsage ++
             [{ id := db.nextUsageId, userId := uid, modelName := modelName,
                promptTokens := pt, completionTokens := ct, neuronsCost := 0,
                transactionId := none,
                requestHash := generateRequestHash sha requestText modelName,
                requestText := requestText, responseText := cu.responseText,
                metadata := meta ++ [("cached", "true"), ("cached_id", toString cu.id)] }],
           nextUsageId := db.nextUsageId + 1 },
       Except.ok
         { id := db.nextUsageId, userId := uid, modelName := modelName,
           promptTokens := pt, completionTokens := ct, neuronsCost := 0,
           transactionId := none,
           requestHash := generateRequestHash sha requestText modelName,
           requestText := requestText, responseText := cu.responseText,
           metadata := meta ++ [("cached", "true"), ("cached_id", toString cu.id)] }) := by
  simp only [RecordLLMUsage, hc, AddLLMUsage]

theorem RecordLLMUsage_charge (sha : String → String) (db : DB) (uid : Int)
    (modelName requestText responseText : String) (pt ct cost : Int)
    (meta : List (String × String)) (now : Int) (bal : Balance)
    (hc : GetLLMUsageByHash db (generateRequestHash sha requestText modelName) = none)
    (hpos : 0 < cost) (hfind : findBalance db uid = some bal) (hbal : cost ≤ bal.balance) :
    ∃ (t : Transaction) (u : LLMUsage),
      RecordLLMUsage sha db uid modelName requestText responseText pt ct cost meta now =
        ({ db with
             balances := setBalanceRow db.balances uid
               { userId := uid, balance := bal.balance - cost,
                 lifetimeEarned := bal.lifetimeEarned,
                 lifetimeSpent := bal.lifetimeSpent + cost,
                 lastDailyRewardAt := bal.lastDailyRewardAt },
             transactions := db.transactions ++ [t],
             nextTxId := db.nextTxId + 1,
             llmUsage := db.llmUsage ++ [u],
             nextUsageId := db.nextUsageId + 1 },
         Except.ok u) ∧
      t.amount = -cost ∧ t.transactionType = TransactionType.usage ∧
      u.requestHash = generateRequestHash sha requestText modelName ∧
      u.neuronsCost = cost ∧ u.transactionId = some t.id := by
  have hgb : GetBalance db uid = (db, bal) := GetBalance_found db uid bal hfind
  have hnc : ¬(-cost > 0) := by omega
  have hcond : 0 ≤ (GetBalance db (usageTx uid modelName pt ct cost).userId).2.balance +
      (usageTx uid modelName pt ct cost).amount := by
    simp only [usageTx, hgb]
    omega
  have hmain : RecordLLMUsage sha db uid modelName requestText responseText pt ct cost meta now =
      ({ db with
           balances := setBalanceRow db.balances uid
             { userId := uid, balance := bal.balance - cost,
               lifetimeEarned := bal.lifetimeEarned,
               lifetimeSpent := bal.lifetimeSpent + cost,
               lastDailyRewardAt := bal.lastDailyRewardAt },
           transactions := db.transactions ++ [txApplied db (usageTx uid modelName pt ct cost)],
           nextTxId := db.nextTxId + 1,
           llmUsage := db.llmUsage ++
             [{ id := db.nextUsageId, userId := uid, modelName := modelName,
                promptTokens := pt, completionTokens := ct, neuronsCost := cost,
                transactionId := some (txApplied db (usageTx uid modelName pt ct cost)).id,
                requestHash := generateRequestHash sha requestText modelName,
                requestText := requestText, responseText := responseText, metadata := meta }],
           nextUsageId := db.nextUsageId + 1 },
       Except.ok
         { id := db.nextUsageId, userId := uid, modelName := modelName,
           promptTokens := pt, completionTokens := ct, neuronsCost := cost,
           transactionId := some (txApplied db (usageTx uid modelName pt ct cost)).id,
           requestHash := generateRequestHash sha requestText modelName,
           requestText := requestText, responseText := responseText, metadata := meta }) := by
    simp only [RecordLLMUsage, hc]
    rw [if_pos hpos, hgb]
    simp only
    rw [if_neg (not_lt.mpr hbal)]
    rw [AddTransaction_ok_eq db now _ hcond]
    simp only [AddLLMUsage, usageTx, hgb]
    simp [balApplied, txApplied, usageTx, hgb, hnc, sub_eq_add_neg]
  exact ⟨txApplied db (usageTx uid modelName pt ct cost), _, hmain, rfl, rfl, rfl, rfl, rfl⟩

theorem string_append_left_cancel {p a b : String} (h : p ++ a = p ++ b) : a = b := by
  have hd := congrArg String.data h
  simp only [String.data_append] at hd
  exact String.ext (List.append_cancel_left hd)

/-- C4: a cache hit records a zero-cost usage carrying the cached
response with no ledger mutation; two metering runs with the same
(user, model, prompt) debit the ledger exactly once; the same prompt
against two different models debits twice, assuming the hash is
collision-free. -/
theorem recordLLMUsage_cache_billing :
    (∀ (sha : String → String) (db : DB) (uid : Int)
       (modelName requestText responseText : String) (pt ct cost : Int)
       (meta : List (String × String)) (now : Int) (cu : LLMUsage),
      GetLLMUsageByHash db (generateRequestHash sha requestText modelName) = some cu →
      ∃ u : LLMUsage,
        RecordLLMUsage sha db uid modelName requestText responseText pt ct cost meta now =
          ({ db with llmUsage := db.llmUsage ++ [u], nextUsageId := db.nextUsageId + 1 },
           Except.ok u) ∧
        u.neuronsCost = 0 ∧ u.responseText = cu.responseText ∧ u.transactionId = none) ∧
    (∀ (sha : String → String) (db : DB) (uid : Int)
       (modelName requestText resp1 resp2 : String) (pt ct cost : Int)
       (meta1 meta2 : List (String × String)) (now1 now2 : Int) (bal : Balance),
      GetLLMUsageByHash db (generateRequestHash sha requestText modelName) = none →
      0 < cost → findBalance db uid = some bal → cost ≤ bal.balance →
      ∃ t : Transaction,
        (RecordLLMUsage sha db uid modelName requestText resp1 pt ct cost meta1 now1).1.transactions
          = db.transactions ++ [t] ∧
        t.amount = -cost ∧ t.transactionType = TransactionType.usage ∧
        (RecordLLMUsage sha
            (RecordLLMUsage sha db uid modelName requestText resp1 pt ct cost meta1 now1).1
            uid modelName requestText resp2 pt ct cost meta2 now2).1.transactions
          = db.transactions ++ [t]) ∧
    (∀ (sha : String → String), Function.Injective sha →
      ∀ (db : DB) (uid : Int) (p m1 m2 resp1 resp2 : String) (pt ct cost1 cost2 : Int)
        (meta1 meta2 : List (String × String)) (now1 now2 : Int) (bal : Balance),
      m1 ≠ m2 →
      GetLLMUsageByHash db (generateRequestHash sha p m1) = none →
      GetLLMUsageByHash db (generateRequestHash sha p m2) = none →
      0 < cost1 → 0 < cost2 → findBalance db uid = some bal → cost1 + cost2 ≤ bal.balance →
      ∃ t1 t2 : Transaction,
        (RecordLLMUsage sha
            (RecordLLMUsage sha db uid m1 p resp1 pt ct cost1 meta1 now1).1
            uid m2 p resp2 pt ct cost2 meta2 now2).1.transactions
          = db.transactions ++ [t1, t2] ∧
        t1.amount = -cost1 ∧ t2.amount = -cost2) := by
  refine ⟨?_, ?_, ?_⟩
  · intro sha db uid modelName requestText responseText pt ct cost meta now cu hc
    exact ⟨_, RecordLLMUsage_cache_hit sha db uid modelName requestText responseText
               pt ct cost meta now cu hc, rfl, rfl, rfl⟩
  · intro sha db uid modelName requestText resp1 resp2 pt ct cost meta1 meta2 now1 now2 bal
      hc hpos hfind hbal
    obtain ⟨t, u, heq, hta, htt, huh, hun, hui⟩ :=
      RecordLLMUsage_charge sha db uid modelName requestText resp1 pt ct cost meta1 now1 bal
        hc hpos hfind hbal
    have hl2 : GetLLMUsageByHash
        (RecordLLMUsage sha db uid modelName requestText resp1 pt ct cost meta1 now1).1
        (generateRequestHash sha requestText modelName) = some u :=
      GetLLMUsageByHash_append_last _ db u _ (by rw [heq]) huh
    refine ⟨t, by rw [heq], hta, htt, ?_⟩
    rw [RecordLLMUsage_cache_hit sha _ uid modelName requestText resp2 pt ct cost meta2 now2 u hl2]
    rw [heq]
  · intro sha hinj db uid p m1 m2 resp1 resp2 pt ct cost1 cost2 meta1 meta2 now1 now2 bal
      hm hc1 hc2 hpos1 hpos2 hfind hbal
    obtain ⟨t1, u1, heq1, hta1, htt1, huh1, hun1, hui1⟩ :=
      RecordLLMUsage_charge sha db uid m1 p resp1 pt ct cost1 meta1 now1 bal hc1 hpos1 hfind
        (by omega)
    have hhne : generateRequestHash sha p m1 ≠ generateRequestHash sha p m2 := by
      intro hh
      exact hm (string_append_left_cancel (hinj hh))
    have hc2b : GetLLMUsageByHash
        (RecordLLMUsage sha db uid m1 p resp1 pt ct cost1 meta1 now1).1
        (generateRequestHash sha p m2) = none :=
      GetLLMUsageByHash_append_none _ db u1 _ (by rw [heq1]) (by rw [huh1]; exact hhne) hc2
    have hfind2 : findBalance (RecordLLMUsage sha db uid m1 p resp1 pt ct cost1 meta1 now1).1 uid
        = some { userId := uid, balance := bal.balance - cost1,
                 lifetimeEarned := bal.lifetimeEarned,
                 lifetimeSpent := bal.lifetimeSpent + cost1,
                 lastDailyRewardAt := bal.lastDailyRewardAt } := by
      rw [heq1]
      exact find?_setBalanceRow_some db.balances uid _ bal rfl hfind
    obtain ⟨t2, u2, heq2, hta2, htt2, huh2, hun2, hui2⟩ :=
      RecordLLMUsage_charge sha (RecordLLMUsage sha db uid m1 p resp1 pt ct cost1 meta1 now1).1
        uid m2 p resp2 pt ct cost2 meta2 now2 _ hc2b hpos2 hfind2 (by dsimp only; omega)
    refine ⟨t1, t2, ?_, hta1, hta2⟩
    rw [heq2, heq1]
    simp

theorem foldl_laterEnd_some (l : List Subscription) (a : Subscription) :
    ∃ r, l.foldl laterEnd (some a) = some r := by
  induction l generalizing a with
  | nil => exact ⟨a, rfl⟩
  | cons x t ih =>
    simp only [List.foldl, laterEnd]
    split
    · exact ih x
    · exact ih a

theorem foldl_laterEnd_mem : ∀ (l : List Subscription) (acc : Option Subscription) (r : Subscription),
    l.foldl laterEnd acc = some r → acc = some r ∨ r ∈ l := by
  intro l
  induction l with
  | nil =>
    intro acc r h
    exact Or.inl h
  | cons x t ih =>
    intro acc r h
    simp only [List.foldl] at h
    rcases ih (laterEnd acc x) r h with hacc | hmem
    · cases acc with
      | none =>
        simp only [laterEnd] at hacc
        injection hacc with hxr
        subst hxr
        exact Or.inr (List.mem_cons_self _ _)
      | some b =>
        simp only [laterEnd] at hacc
        split at hacc
        · injection hacc with hxr
          subst hxr
          exact Or.inr (List.mem_cons_self _ _)
        · exact Or.inl hacc
    · exact Or.inr (List.mem_cons_of_mem x hmem)

theorem activeSubRows_spec (db : DB) (uid now : Int) (s : Subscription)
    (hs : s ∈ activeSubRows db uid now) :
    s ∈ db.subscriptions ∧ s.userId = uid ∧ s.status = Status.active ∧ now < s.endDate := by
  simp only [activeSubRows, List.mem_filter, Bool.and_eq_true, decide_eq_true_eq] at hs
  exact ⟨hs.1, hs.2.1.1, hs.2.1.2, hs.2.2⟩

/-- C9: when a live subscription row (active status, end date after now)
exists, `GetActiveSubscription` returns one such row with its plan
loaded and `GetSubscriptionPlan` returns that plan; otherwise both
synthesize the free plan as an active subscription running 100 years
from now — a value built on the fly, never written back (the embedding
of the lookup is a pure read). -/
theorem getActiveSubscription_resolution :
    (∀ (db : DB) (uid now : Int),
      (∃ s ∈ db.subscriptions, s.userId = uid ∧ s.status = Status.active ∧ now < s.endDate) →
      ∃ r : Subscription,
        GetActiveSubscription db uid now = some { r with plan := GetPlanByID db r.planId } ∧
        r ∈ db.subscriptions ∧ r.userId = uid ∧ r.status = Status.active ∧ now < r.endDate ∧
        (∀ plan : Plan, GetPlanByID db r.planId = some plan →
          GetSubscriptionPlan db uid now = some plan)) ∧
    (∀ (db : DB) (uid now : Int) (fp : Plan),
      (∀ s ∈ db.subscriptions, ¬(s.userId = uid ∧ s.status = Status.active ∧ now < s.endDate)) →
      GetPlanByCode db "free" = some fp →
      GetActiveSubscription db uid now =
        some { id := 0, userId := uid, planId := fp.id, status := Status.active,
               startDate := now, endDate := addDateYears now 100, autoRenew := true,
               plan := some fp } ∧
      GetSubscriptionPlan db uid now = some fp) := by
  constructor
  · intro db uid now hex
    obtain ⟨s, hsmem, hsprop⟩ := hex
    have hsrow : s ∈ activeSubRows db uid now := by
      simp only [activeSubRows, List.mem_filter, Bool.and_eq_true, decide_eq_true_eq]
      exact ⟨hsmem, ⟨hsprop.1, hsprop.2.1⟩, hsprop.2.2⟩
    cases hrows : activeSubRows db uid now with
    | nil =>
      rw [hrows] at hsrow
      exact absurd hsrow (List.not_mem_nil s)
    | cons x t =>
      obtain ⟨r, hr⟩ := foldl_laterEnd_some t x
      have hfold : (activeSubRows db uid now).foldl laterEnd none = some r := by
        rw [hrows]
        simpa [List.foldl, laterEnd] using hr
      have hrmem : r ∈ activeSubRows db uid now := by
        rcases foldl_laterEnd_mem (activeSubRows db uid now) none r hfold with hn | hm
        · exact absurd hn (by simp)
        · exact hm
      obtain ⟨hrsub, hruid, hrst, hrend⟩ := activeSubRows_spec db uid now r hrmem
      have hga : GetActiveSubscription db uid now =
          some { r with plan := GetPlanByID db r.planId } := by
        simp only [GetActiveSubscription, hfold]
      refine ⟨r, hga, hrsub, hruid, hrst, hrend, ?_⟩
      intro plan hplan
      simp only [GetSubscriptionPlan, hga, hplan]
  · intro db uid now fp hall hfp
    have hrows : activeSubRows db uid now = [] := by
      rw [activeSubRows, List.filter_eq_nil_iff]
      intro s hsm
      simp only [Bool.and_eq_true, decide_eq_true_eq, not_and]
      intro h1 h2
      exact hall s hsm ⟨h1.1, h1.2, h2⟩
    have hga : GetActiveSubscription db uid now =
        some { id := 0, userId := uid, planId := fp.id, status := Status.active,
               startDate := now, endDate := addDateYears now 100, autoRenew := true,
               plan := some fp } := by
      simp only [GetActiveSubscription, hrows, List.foldl, hfp]
    exact ⟨hga, by simp only [GetSubscriptionPlan, hga]⟩

/-- C5 (refuting propagation): in the `dbW5` run the pipeline's own
recording call — same arguments `ProcessRequest` passes — fails with the
insufficient-neurons error, yet `ProcessRequest` returns the model
response successfully: the ledger error is logged and dropped, not
propagated. -/
theorem processRequest_swallows_record_error :
    (RecordLLMUsage id dbW5 1 "llama" "hi" "ok-text" 1 1 1
        [("model_name", "llama"), ("conversation_id", "")] 0).2 =
      Except.error "недостаточно нейронов для выполнения запроса" ∧
    (ProcessRequest clientsW5 cfgW5 id dbW5 reqW5 0).2 =
      Except.ok { respW5 with neuronsCost := 1 } :=
  ⟨by decide, by decide⟩

/-- C5 (amended): once the pre-checks pass and the external call
returns, `ProcessRequest` yields the response with the discounted cost
regardless of the outcome of `RecordLLMUsage` — a failure of the
recording/spending step never reaches the caller. -/
theorem processRequest_ok_despite_record
    (clients : ModelType → Option (Request → Except String Response))
    (cfg : SubscriptionConfig) (sha : String → String) (db : DB) (req : Request) (now : Int)
    (client : Request → Except String Response) (resp : Response) (cost : Int)
    (hclient : clients req.modelType = some client)
    (haccess : CheckModelAccess db req.userId req.modelName now = Except.ok true)
    (hlen : CheckRequestLength db req.userId req.userMessage now = Except.ok ())
    (hcost : GetRequestCost cfg req.modelType req.modelName = Except.ok cost)
    (henough : (HasEnoughNeurons db req.userId cost).2 = true)
    (hcall : client req = Except.ok resp) :
    (ProcessRequest clients cfg sha db req now).2 =
      Except.ok { resp with
        neuronsCost := ApplyNeuronDiscount (HasEnoughNeurons db req.userId cost).1 req.userId cost now } := by
  simp only [ProcessRequest, hclient, haccess, hlen, hcost, henough, hcall]
  simp

/-- C5 witness: the amended theorem instantiated on the swallowed-error
scenario. -/
theorem processRequest_ok_despite_record_witness :
    (ProcessRequest clientsW5 cfgW5 id dbW5 reqW5 0).2 =
      Except.ok { respW5 with
        neuronsCost := ApplyNeuronDiscount (HasEnoughNeurons dbW5 reqW5.userId 0).1 reqW5.userId 0 0 } :=
  processRequest_ok_despite_record clientsW5 cfgW5 id dbW5 reqW5 0 clientW5 respW5 0
    rfl (by decide) (by decide) (by decide) (by decide) rfl

/-- C2 witness: spending 3 from balance 2 fails and changes nothing. -/
theorem addTransaction_insufficient_balance_atomic_witness :
    AddTransaction dbW2 0 txW2 = (dbW2, Except.error "недостаточно нейронов на балансе") :=
  addTransaction_insufficient_balance_atomic dbW2 0 txW2 balW2 3 (by decide) (by decide) (by decide)

/-- C3 witness: the invariants instantiated on a grant of 5 over
balance 2. -/
theorem addTransaction_ok_invariants_witness :
    ∃ nb : Balance, findBalance dbW3r txW3.userId = some nb ∧
      nb.balance = (GetBalance dbW2 txW3.userId).2.balance + txW3.amount ∧
      0 ≤ nb.balance ∧
      nb.lifetimeEarned = (if txW3.amount > 0 then (GetBalance dbW2 txW3.userId).2.lifetimeEarned + txW3.amount else (GetBalance dbW2 txW3.userId).2.lifetimeEarned) ∧
      nb.lifetimeSpent = (if txW3.amount > 0 then (GetBalance dbW2 txW3.userId).2.lifetimeSpent else (GetBalance dbW2 txW3.userId).2.lifetimeSpent - txW3.amount) ∧
      (GetBalance dbW2 txW3.userId).2.lifetimeEarned ≤ nb.lifetimeEarned ∧
      (GetBalance dbW2 txW3.userId).2.lifetimeSpent ≤ nb.lifetimeSpent ∧
      txW3r.balanceAfter = nb.balance ∧
      txW3r.amount = txW3.amount ∧
      dbW3r.transactions = dbW2.transactions ++ [txW3r] :=
  addTransaction_ok_invariants dbW2 0 txW3 dbW3r txW3r (by decide)

/-- C4 witness: the cache-hit clause on `dbW4c` and the exactly-one-debit
clause on `dbW4`, both under the identity hash. -/
theorem recordLLMUsage_cache_billing_witness :
    (∃ u : LLMUsage,
      RecordLLMUsage id dbW4c 1 "m1" "hi" "resp" 1 1 1 [] 0 =
        ({ dbW4c with llmUsage := dbW4c.llmUsage ++ [u], nextUsageId := dbW4c.nextUsageId + 1 },
         Except.ok u) ∧
      u.neuronsCost = 0 ∧ u.responseText = usageW4.responseText ∧ u.transactionId = none) ∧
    (∃ t : Transaction,
      (RecordLLMUsage id dbW4 1 "m1" "hi" "r1" 1 1 3 [] 0).1.transactions
        = dbW4.transactions ++ [t] ∧
      t.amount = -3 ∧ t.transactionType = TransactionType.usage ∧
      (RecordLLMUsage id (RecordLLMUsage id dbW4 1 "m1" "hi" "r1" 1 1 3 [] 0).1
          1 "m1" "hi" "r2" 1 1 3 [] 0).1.transactions
        = dbW4.transactions ++ [t]) :=
  ⟨recordLLMUsage_cache_billing.1 id dbW4c 1 "m1" "hi" "resp" 1 1 1 [] 0 usageW4 (by decide),
   recordLLMUsage_cache_billing.2.1 id dbW4 1 "m1" "hi" "r1" "r2" 1 1 3 [] [] 0 0 balW4
     (by decide) (by decide) (by decide) (by decide)⟩

/-- C6 witness: the boundary instantiated at 19h59m (rejected) and
20h01m (granted with the free plan's five neurons). -/
theorem daily_grant_window_witness :
    AddDailyNeurons dbW6 1 0 71940 = (dbW6, Except.error "ежедневное вознаграждение уже получено") ∧
    (∃ (db2 : DB) (t : Transaction),
      AddDailyNeurons dbW6 1 0 72060 = (db2, Except.ok t) ∧ t.amount = 5) :=
  ⟨daily_grant_window.2.1 dbW6 1 0 71940 balW6 0 (by decide) (by decide) (by decide),
   daily_grant_window.2.2 dbW6 1 0 72060 balW6 0 5 freePlan50
     (by decide) (by decide) (by decide) (by decide) (by decide) (by decide)⟩

/-- C9 witness: with no subscription rows, the free plan is synthesized
as an active 100-year subscription for user 1. -/
theorem getActiveSubscription_resolution_witness :
    GetActiveSubscription dbW6 1 500 =
      some { id := 0, userId := 1, planId := freePlan50.id, status := Status.active,
             startDate := 500, endDate := addDateYears 500 100, autoRenew := true,
             plan := some freePlan50 } ∧
    GetSubscriptionPlan dbW6 1 500 = some freePlan50 :=
  getActiveSubscription_resolution.2 dbW6 1 500 freePlan50 (by decide) (by decide)

end Neurobot
